import Mathlib

/-!
Verification of the batch-reading core of the `vbfml` repository.

The embedded code:
* `MultiBatchBuffer` (the spec's `WindowedBatchCache`) from `src/vbfml/util.py`,
  translated field by field and method by method;
* the multi-file cursor and batched reader (the spec's `MultiFileCursor` /
  `BatchedDatasetReader`, realised in the repository by
  `SingleDatasetGeneratorUproot`), whose implementation file
  `src/vbfml/input/datagen.py` is not part of the sources at hand — only its
  tests are — and is therefore modelled from the spec.

A pandas data frame is modelled as the list of its rows; for the buffer a row
is a single integer value, for the reader a row is the list of its column
values.  Python integers are `Int`, Python floor division `//` is `Int.fdiv`,
and a raised exception is an `error` / `none` result.
-/

namespace Vbfml

/-- `MultiBatchBuffer` from `src/vbfml/util.py`: a windowed cache holding the
most recently materialised table of rows (`df`, `none` for Python `None`),
the configured `batch_size` and the inclusive batch-index window
`[min_batch, max_batch]`.  The cached data frame is modelled as the list of
its rows, carrying the default range index `0, …, len-1`. -/
structure MultiBatchBuffer where
  df : Option (List Int)
  batch_size : Int
  min_batch : Int
  max_batch : Int
deriving DecidableEq

/-- A freshly constructed `MultiBatchBuffer` with the given `batch_size`: the
dataclass defaults are `df = None`, `min_batch = -1`, `max_batch = -1`. -/
def MultiBatchBuffer.fresh (batch_size : Int) : MultiBatchBuffer :=
  { df := none, batch_size := batch_size, min_batch := -1, max_batch := -1 }

/-- `MultiBatchBuffer.set_multibatch`.  Python executes the three assignments
in order; `len(df) // self.batch_size` is floor division and raises
`ZeroDivisionError` when `batch_size = 0`, at which point `df` and `min_batch`
have already been assigned — the `error` branch carries that partially
updated state. -/
def MultiBatchBuffer.set_multibatch (b : MultiBatchBuffer) (df : List Int)
    (min_batch : Int) : Except MultiBatchBuffer MultiBatchBuffer :=
  if b.batch_size = 0 then
    Except.error { b with df := some df, min_batch := min_batch }
  else
    Except.ok { b with
      df := some df
      min_batch := min_batch
      max_batch := min_batch + Int.fdiv (df.length : Int) b.batch_size }

/-- `MultiBatchBuffer.__contains__`, the Python membership test.  It is a pure
function of the buffer state: the method performs no assignment. -/
def MultiBatchBuffer.contains (b : MultiBatchBuffer) (batch_index : Int) : Bool :=
  match b.df with
  | none => false
  | some df =>
    if df.length = 0 then false
    else if batch_index < 0 then false
    else decide (b.min_batch ≤ batch_index ∧ batch_index ≤ b.max_batch)

/-- `MultiBatchBuffer.clear`: reset to the empty window. -/
def MultiBatchBuffer.clear (b : MultiBatchBuffer) : MultiBatchBuffer :=
  { b with df := none, min_batch := -1, max_batch := -1 }

/-- Pandas `df.loc[a:b]` on a data frame with the default range index: the rows
whose integer label `p` (equal to their position) satisfies `a ≤ p ≤ b`.  Both
endpoints are inclusive; bounds beyond the index are clamped and `b < a`
yields the empty slice.  Modelled by a scan that shifts both bounds as it
passes each row. -/
def loc_slice : List Int → Int → Int → List Int
  | [], _, _ => []
  | x :: xs, a, b =>
    (if a ≤ 0 ∧ 0 ≤ b then [x] else []) ++ loc_slice xs (a - 1) (b - 1)

/-- `MultiBatchBuffer.get_batch_df`: raises `IndexError` (modelled as `none`)
when `batch_index` is not contained in the buffer; otherwise returns
`self.df.loc[row_start:row_stop]` with `row_start = batch_index - min_batch`
and `row_stop = min(row_start + batch_size, len(df))`.  The method performs
no assignment, so the buffer state is unchanged in either case. -/
def MultiBatchBuffer.get_batch_df (b : MultiBatchBuffer) (batch_index : Int) :
    Option (List Int) :=
  if b.contains batch_index then
    match b.df with
    | none => none
    | some df =>
      let row_start := batch_index - b.min_batch
      let row_stop := min (row_start + b.batch_size) (df.length : Int)
      some (loc_slice df row_start row_stop)
  else none

/-- Modelled from the spec: the `MultiFileCursor` state of
`SingleDatasetGeneratorUproot` (`src/vbfml/input/datagen.py`, absent from the
sources at hand).  It owns an immutable ordered list of backing files — each
file the list of its rows, each row the list of its column values — and a
monotonically advancing read position `(file_index, row_offset)`;
`file_index = files.length` is the exhausted sentinel. -/
structure MultiFileCursor where
  files : List (List (List Int))
  file_index : Nat
  row_offset : Nat
deriving DecidableEq

/-- Modelled from the spec: the pulling loop of `read_rows`, acting on the
suffix of the file list from the current file on.  It repeatedly takes rows
from the head file starting at offset `off`; when that file is exhausted
mid-request it moves to the next file at offset `0`, until `n` rows are
collected (returning the rows, the number of files advanced past, and the new
intra-file offset) or no files remain, in which case the whole attempt fails
(`none`) and nothing counts as consumed. -/
def read_aux : List (List (List Int)) → Nat → Nat → Option (List (List Int) × Nat × Nat)
  | [], off, n => if n = 0 then some ([], 0, off) else none
  | f :: rest, off, n =>
    if n = 0 then some ([], 0, off)
    else
      let avail := f.length - off
      if n < avail then some ((f.drop off).take n, 0, off + n)
      else if n = avail then some (f.drop off, 1, 0)
      else
        match read_aux rest 0 (n - avail) with
        | some (rows, adv, off2) => some (f.drop off ++ rows, adv + 1, off2)
        | none => none

/-- Modelled from the spec: `read_rows(n)` — the all-or-nothing read of the
next `n` rows across file boundaries.  On success the returned cursor has
advanced by exactly `n` rows; on end-of-data the error is reported and the
returned cursor is the unchanged input cursor. -/
def read_rows (c : MultiFileCursor) (n : Nat) :
    Except Unit (List (List Int)) × MultiFileCursor :=
  match read_aux (c.files.drop c.file_index) c.row_offset n with
  | some (rows, adv, off2) =>
    (Except.ok rows, { c with file_index := c.file_index + adv, row_offset := off2 })
  | none => (Except.error (), c)

/-- Modelled from the spec: the `BatchedDatasetReader` layered on the cursor;
the row schema consists of `n_features` feature columns followed by the single
label column. -/
structure BatchedDatasetReader where
  cursor : MultiFileCursor
  n_features : Nat
deriving DecidableEq

/-- Modelled from the spec: `read_events(n)` delegates to `read_rows(n)`,
propagating an end-of-data failure unchanged, and on success splits each row's
columns into the features block and the one-column labels block, preserving
row order. -/
def read_events (r : BatchedDatasetReader) (n : Nat) :
    Except Unit (List (List Int) × List (List Int)) × BatchedDatasetReader :=
  match read_rows r.cursor n with
  | (Except.ok rows, c2) =>
    (Except.ok (rows.map (fun row => row.take r.n_features),
                rows.map (fun row => row.drop r.n_features)),
     { r with cursor := c2 })
  | (Except.error e, c2) => (Except.error e, { r with cursor := c2 })

/-- The rows of the logical stream that are still ahead of the cursor, in
file-list order and, within each file, in on-file physical order. -/
def rows_from (c : MultiFileCursor) : List (List Int) :=
  ((c.files.drop c.file_index).flatten).drop c.row_offset

/-- Rows remaining across all unread files: the total row count of the files
from `file_index` on, minus the rows of the current file already consumed. -/
def remaining (c : MultiFileCursor) : Nat :=
  ((c.files.drop c.file_index).map List.length).sum - c.row_offset

/-- Rows already consumed by the cursor: all rows of the files fully passed,
plus the offset into the current file.  This is the logical read position. -/
def consumed (c : MultiFileCursor) : Nat :=
  ((c.files.take c.file_index).map List.length).sum + c.row_offset

/-- A cursor is well formed when its file index is in bounds (or the exhausted
sentinel) and its row offset does not exceed the current file's length, the
offset being `0` at the sentinel. -/
def WellFormed (c : MultiFileCursor) : Prop :=
  c.file_index ≤ c.files.length ∧
  c.row_offset ≤ ((c.files.drop c.file_index).headD []).length

instance (c : MultiFileCursor) : Decidable (WellFormed c) := by
  unfold WellFormed; infer_instance

/-- Every row stored in the cursor's files has exactly `w` column values. -/
def rowsOk (c : MultiFileCursor) (w : Nat) : Prop :=
  ∀ f ∈ c.files, ∀ row ∈ f, row.length = w

instance (c : MultiFileCursor) (w : Nat) : Decidable (rowsOk c w) := by
  unfold rowsOk; infer_instance

/-- The 20-row table `0, 1, …, 19` used in the concrete window scenario. -/
def df20 : List Int := (List.range 20).map Int.ofNat

/-- The buffer obtained by `set_multibatch(df20, min_batch = 3)` on a fresh
buffer configured with `batch_size = 10`. -/
def buf20 : MultiBatchBuffer :=
  match (MultiBatchBuffer.fresh 10).set_multibatch df20 3 with
  | Except.ok b => b
  | Except.error b => b

/-- A cursor over a single backing file of two one-column rows. -/
def cursorA : MultiFileCursor := { files := [[[1], [2]]], file_index := 0, row_offset := 0 }

/-- A cursor over two backing files of two one-column rows each, one row of
the first file already consumed. -/
def cursorB : MultiFileCursor :=
  { files := [[[10], [11]], [[12], [13]]], file_index := 0, row_offset := 1 }

/-- The cursor `cursorB` after a successful two-row read: now one row into
the second file. -/
def cursorB2 : MultiFileCursor :=
  { files := [[[10], [11]], [[12], [13]]], file_index := 1, row_offset := 1 }

/-- A reader with one feature column and one label column over two backing
files holding two rows and one row respectively. -/
def readerC : BatchedDatasetReader :=
  { cursor := { files := [[[1, 9], [2, 8]], [[3, 7]]], file_index := 0, row_offset := 0 }
    n_features := 1 }

section Lemmas

/-- The `.loc[a:b]` slice is the block of `(b + 1).toNat - a.toNat` rows
starting at position `a.toNat`. -/
lemma loc_slice_eq (df : List Int) : ∀ a b : Int,
    loc_slice df a b = (df.drop a.toNat).take ((b + 1).toNat - a.toNat) := by
  induction df with
  | nil => intro a b; simp [loc_slice]
  | cons x xs ih =>
    intro a b
    by_cases h : a ≤ 0 ∧ 0 ≤ b
    · obtain ⟨h1, h2⟩ := h
      have ha : a.toNat = 0 := by omega
      have ha1 : (a - 1).toNat = 0 := by omega
      have hb : (b - 1 + 1).toNat = b.toNat := by omega
      have hb1 : (b + 1).toNat = b.toNat + 1 := by omega
      simp only [loc_slice, if_pos (And.intro h1 h2), ih, ha, ha1, hb, hb1,
        List.drop_zero, Nat.sub_zero, List.take_succ_cons, List.singleton_append]
    · simp only [loc_slice, if_neg h, ih, List.nil_append]
      rcases lt_or_ge b 0 with hb | hb
      · have e1 : (b - 1 + 1).toNat = 0 := by omega
        have e2 : (b + 1).toNat - a.toNat = 0 := by omega
        simp only [e1, e2, Nat.zero_sub, List.take_zero]
      · have ha : 0 < a := by omega
        have h3 : (x :: xs).drop a.toNat = xs.drop (a - 1).toNat := by
          have e : a.toNat = (a - 1).toNat + 1 := by omega
          rw [e, List.drop_succ_cons]
        rw [h3]
        congr 1
        omega

/-- Characterisation of the Python membership test. -/
lemma contains_iff (b : MultiBatchBuffer) (i : Int) :
    b.contains i = true ↔
      (∃ df, b.df = some df ∧ 0 < df.length) ∧
        0 ≤ i ∧ b.min_batch ≤ i ∧ i ≤ b.max_batch := by
  cases hdf : b.df with
  | none => simp [MultiBatchBuffer.contains, hdf]
  | some df =>
    simp only [MultiBatchBuffer.contains, hdf]
    by_cases h0 : df.length = 0
    · simp only [if_pos h0]
      constructor
      · intro hfalse; cases hfalse
      · rintro ⟨⟨df2, hdf2, hlen⟩, -⟩
        cases hdf2
        omega
    · simp only [if_neg h0]
      by_cases hneg : i < 0
      · simp only [if_pos hneg]
        constructor
        · intro hfalse; cases hfalse
        · rintro ⟨-, h, -⟩; omega
      · simp only [if_neg hneg, decide_eq_true_eq]
        constructor
        · intro hr
          exact ⟨⟨df, rfl, by omega⟩, by omega, hr.1, hr.2⟩
        · rintro ⟨-, -, h1, h2⟩; exact ⟨h1, h2⟩

/-- A contained index forces the cached table to be present. -/
lemma contains_df_some (b : MultiBatchBuffer) (i : Int)
    (h : b.contains i = true) : ∃ df, b.df = some df := by
  obtain ⟨⟨df, hdf, -⟩, -⟩ := (contains_iff b i).mp h
  exact ⟨df, hdf⟩

end Lemmas

/-- C4: for every table and every `min_batch_index`, `set_multibatch` with the
configured positive batch size succeeds and replaces the whole window state,
setting `max_batch = min_batch + ⌊len(df) / batch_size⌋` (floor division)
while keeping the configured batch size. -/
theorem set_multibatch_replaces_window (b : MultiBatchBuffer) (df : List Int)
    (m : Int) (h : 0 < b.batch_size) :
    b.set_multibatch df m = Except.ok
      { df := some df
        batch_size := b.batch_size
        min_batch := m
        max_batch := m + Int.fdiv (df.length : Int) b.batch_size } := by
  have hne : ¬ b.batch_size = 0 := by omega
  simp [MultiBatchBuffer.set_multibatch, hne]

/-- Witness for C4 at a concrete buffer: batch size `2`, a two-row table and
`min_batch = 0` give the window `[0, 1]`. -/
theorem set_multibatch_replaces_window_witness :
    0 < (MultiBatchBuffer.fresh 2).batch_size ∧
      (MultiBatchBuffer.fresh 2).set_multibatch [5, 6] 0 = Except.ok
        { df := some [5, 6], batch_size := 2, min_batch := 0, max_batch := 1 } :=
  ⟨by decide, set_multibatch_replaces_window (MultiBatchBuffer.fresh 2) [5, 6] 0 (by decide)⟩

/-- C6: the membership test is true exactly when the cached table is present
and non-empty and the index is non-negative and inside `[min_batch,
max_batch]`; on a cleared buffer and on a freshly constructed buffer (any
configured batch size) it is false for every index.  In this embedding the
test is a pure function of the buffer state, as the Python method performs no
assignment. -/
theorem contains_characterisation (b : MultiBatchBuffer) (i bs : Int) :
    (b.contains i = true ↔
      (∃ df, b.df = some df ∧ 0 < df.length) ∧
        0 ≤ i ∧ b.min_batch ≤ i ∧ i ≤ b.max_batch) ∧
    (b.clear).contains i = false ∧
    (MultiBatchBuffer.fresh bs).contains i = false :=
  ⟨contains_iff b i, rfl, rfl⟩

/-- C7: `get_batch_df` fails (raises `IndexError`) exactly when the membership
test is false; the buffer state is unchanged in either case, the method
performing no assignment. -/
theorem get_batch_df_none_iff (b : MultiBatchBuffer) (i : Int) :
    b.get_batch_df i = none ↔ b.contains i = false := by
  by_cases hc : b.contains i = true
  · obtain ⟨df, hdf⟩ := contains_df_some b i hc
    simp [MultiBatchBuffer.get_batch_df, hc, hdf]
  · have hc2 : b.contains i = false := by
      cases h : b.contains i
      · rfl
      · exact absurd h hc
    simp [MultiBatchBuffer.get_batch_df, hc2]

/-- C3 counterexample: after `set_multibatch` of the 20-row table with
`min_batch = 3` on a buffer configured with `batch_size = 10`, `max_batch` is
not `4`, index `5` is contained, and batch `4` is not rows `[10, 20)` of the
table. -/
theorem window_example_counterexample :
    buf20.max_batch ≠ 4 ∧ buf20.contains 5 = true ∧
      buf20.get_batch_df 4 ≠ some [10, 11, 12, 13, 14, 15, 16, 17, 18, 19] := by
  decide

/-- C3 amended: the call succeeds and yields `max_batch = 5`; indices `3`,
`4` and `5` are contained while `2` and `6` are not, and `get_batch_df 4`
returns rows `1` through `11` inclusive of the cached table (positions
`[1, 12)`), as the pandas label slice includes both endpoints. -/
theorem window_example_amended :
    ((MultiBatchBuffer.fresh 10).set_multibatch df20 3).isOk = true ∧
      buf20.max_batch = 5 ∧
      buf20.contains 3 = true ∧ buf20.contains 4 = true ∧
      buf20.contains 5 = true ∧
      buf20.contains 2 = false ∧ buf20.contains 6 = false ∧
      buf20.get_batch_df 4 = some [1, 2, 3, 4, 5, 6, 7, 8, 9, 10, 11] := by
  decide

/-- C5 counterexample: in the 20-row window with `batch_size = 10` and
`min_batch = 3`, index `4` is contained with `row_start = 1` and
`row_stop = 11`, yet `get_batch_df 4` is not the half-open slice
`[row_start, row_stop)` (rows `1` through `10`). -/
theorem get_batch_df_not_half_open :
    buf20.contains 4 = true ∧
      buf20.get_batch_df 4 ≠ some [1, 2, 3, 4, 5, 6, 7, 8, 9, 10] := by
  decide

/-- C5 amended: for every buffer and contained index, `get_batch_df` returns
the contiguous rows of the cached table from position
`row_start = batch_index - min_batch` through position
`row_stop = min(row_start + batch_size, len(df))` inclusive of `row_stop`
(clamped to the table) — one row more than the half-open range
`[row_start, row_stop)` whenever `row_stop` is a valid position. -/
theorem get_batch_df_closed_slice (b : MultiBatchBuffer) (df : List Int)
    (i : Int) (hdf : b.df = some df) (hc : b.contains i = true) :
    b.get_batch_df i = some ((df.drop (i - b.min_batch).toNat).take
      ((min (i - b.min_batch + b.batch_size) (df.length : Int)
        - (i - b.min_batch) + 1).toNat)) := by
  obtain ⟨-, hi, hmin, -⟩ := (contains_iff b i).mp hc
  simp only [MultiBatchBuffer.get_batch_df, hc, if_pos, hdf, loc_slice_eq]
  congr 2
  omega

/-- Witness for C5 amended on the 20-row window: batch `4` is rows `1`
through `11` inclusive. -/
theorem get_batch_df_closed_slice_witness :
    buf20.df = some df20 ∧ buf20.contains 4 = true ∧
      buf20.get_batch_df 4 = some ((df20.drop ((4 : Int) - buf20.min_batch).toNat).take
        ((min ((4 : Int) - buf20.min_batch + buf20.batch_size) (df20.length : Int)
          - ((4 : Int) - buf20.min_batch) + 1).toNat)) :=
  ⟨by decide, by decide, get_batch_df_closed_slice buf20 df20 4 (by decide) (by decide)⟩

/-- C8 counterexample: a buffer configured with the non-positive batch size
`-10` accepts `set_multibatch` silently — the call succeeds rather than being
rejected as a configuration error. -/
theorem set_multibatch_negative_batch_size_accepted :
    (MultiBatchBuffer.fresh (-10)).batch_size ≤ 0 ∧
      ((MultiBatchBuffer.fresh (-10)).set_multibatch df20 3).isOk = true := by
  decide

/-- C8 amended: `set_multibatch` performs no batch-size validation.  A zero
batch size fails with `ZeroDivisionError` — after `df` and `min_batch` have
already been reassigned — and any non-zero batch size, negative ones
included, is silently accepted. -/
theorem set_multibatch_no_validation (b : MultiBatchBuffer) (df : List Int)
    (m : Int) :
    (b.batch_size = 0 →
      b.set_multibatch df m =
        Except.error { b with df := some df, min_batch := m }) ∧
    (b.batch_size ≠ 0 → (b.set_multibatch df m).isOk = true) := by
  constructor
  · intro h0
    simp [MultiBatchBuffer.set_multibatch, h0]
  · intro hne
    simp [MultiBatchBuffer.set_multibatch, hne, Except.isOk, Except.toBool]

/-- Witness for C8 amended: with batch size `0` the call fails after the
partial update, and with batch size `-3` it succeeds. -/
theorem set_multibatch_no_validation_witness :
    ((MultiBatchBuffer.fresh 0).set_multibatch [5] 2 =
      Except.error { df := some [5], batch_size := 0, min_batch := 2, max_batch := -1 }) ∧
    (((MultiBatchBuffer.fresh (-3)).set_multibatch [5] 2).isOk = true) :=
  ⟨(set_multibatch_no_validation (MultiBatchBuffer.fresh 0) [5] 2).1 rfl,
   (set_multibatch_no_validation (MultiBatchBuffer.fresh (-3)) [5] 2).2 (by decide)⟩

/-- C10: `set_multibatch` with a zero-row table and a positive configured
batch size succeeds with `min_batch = max_batch = min_batch_index` — the
bounds are not the empty sentinel `-1` — yet no index is contained and every
`get_batch_df` call fails. -/
theorem set_multibatch_empty_table (b : MultiBatchBuffer) (m : Int)
    (h : 0 < b.batch_size) :
    ∃ b2, b.set_multibatch [] m = Except.ok b2 ∧
      b2.min_batch = m ∧ b2.max_batch = m ∧
      (∀ i, b2.contains i = false) ∧ (∀ i, b2.get_batch_df i = none) := by
  have hne : ¬ b.batch_size = 0 := by omega
  have hset : b.set_multibatch [] m =
      Except.ok { b with df := some [], min_batch := m, max_batch := m } := by
    simp [MultiBatchBuffer.set_multibatch, hne, Int.zero_fdiv]
  exact ⟨_, hset, rfl, rfl, fun i => rfl, fun i => rfl⟩

/-- Witness for C10: a fresh buffer with batch size `1` and
`min_batch_index = 7`. -/
theorem set_multibatch_empty_table_witness :
    0 < (MultiBatchBuffer.fresh 1).batch_size ∧
      ∃ b2, (MultiBatchBuffer.fresh 1).set_multibatch [] 7 = Except.ok b2 ∧
        b2.min_batch = 7 ∧ b2.max_batch = 7 ∧
        (∀ i, b2.contains i = false) ∧ (∀ i, b2.get_batch_df i = none) :=
  ⟨by decide, set_multibatch_empty_table (MultiBatchBuffer.fresh 1) 7 (by decide)⟩

section CursorLemmas

/-- The pulling loop fails exactly when fewer rows than requested remain in
the given file suffix. -/
lemma read_aux_none_iff : ∀ (fs : List (List (List Int))) (off n : Nat),
    off ≤ (fs.headD []).length →
    (read_aux fs off n = none ↔ (fs.flatten.drop off).length < n) := by
  intro fs
  induction fs with
  | nil =>
    intro off n h
    by_cases hn : n = 0
    · subst hn; simp [read_aux]
    · simp [read_aux, hn]
      omega
  | cons f rest ih =>
    intro off n h
    have hh : off ≤ f.length := h
    have hlen : ((f :: rest).flatten.drop off).length =
        f.length - off + rest.flatten.length := by
      simp only [List.flatten_cons, List.length_drop, List.length_append]
      omega
    by_cases hn : n = 0
    · simp [read_aux, hn]
    · by_cases h1 : n < f.length - off
      · simp only [read_aux, if_neg hn, if_pos h1, hlen]
        constructor
        · intro hc; cases hc
        · intro hc; omega
      · by_cases h2 : n = f.length - off
        · simp only [read_aux, if_neg hn, if_neg h1, if_pos h2, hlen]
          constructor
          · intro hc; cases hc
          · intro hc; omega
        · simp only [read_aux, if_neg hn, if_neg h1, if_neg h2, hlen]
          have hrec := ih 0 (n - (f.length - off)) (Nat.zero_le _)
          simp only [List.drop_zero] at hrec
          cases hcase : read_aux rest 0 (n - (f.length - off)) with
          | none =>
            rw [hcase] at hrec
            simp only [hcase]
            constructor
            · intro _; have := hrec.mp rfl; omega
            · intro _; trivial
          | some t =>
            rw [hcase] at hrec
            simp only [hcase]
            constructor
            · intro hc; cases hc
            · intro hc
              have : ¬ (rest.flatten.length < n - (f.length - off)) := by
                intro hlt
                exact absurd (hrec.mpr hlt) (by simp)
              omega

/-- What a successful pull returns: the next `n` rows of the stream in order,
a new well-placed position, and a position advanced by exactly `n` rows. -/
lemma read_aux_some_spec : ∀ (fs : List (List (List Int))) (off n : Nat)
    (rows : List (List Int)) (adv off2 : Nat),
    off ≤ (fs.headD []).length →
    read_aux fs off n = some (rows, adv, off2) →
    rows = (fs.flatten.drop off).take n ∧
    adv ≤ fs.length ∧
    off2 ≤ ((fs.drop adv).headD []).length ∧
    ((fs.take adv).map List.length).sum + off2 = off + n ∧
    (fs.drop adv).flatten.drop off2 = fs.flatten.drop (off + n) := by
  intro fs
  induction fs with
  | nil =>
    intro off n rows adv off2 h hr
    have hoff : off = 0 := by
      have : off ≤ ((List.headD [] []).length) := h
      simpa using this
    by_cases hn : n = 0
    · subst hn
      simp only [read_aux, if_true, eq_self_iff_true, Option.some.injEq,
        Prod.mk.injEq] at hr
      obtain ⟨h1, h2, h3⟩ := hr
      subst h1; subst h2; subst h3
      simp [hoff]
    · simp [read_aux, hn] at hr
  | cons f rest ih =>
    intro off n rows adv off2 h hr
    have hh : off ≤ f.length := h
    by_cases hn : n = 0
    · subst hn
      simp only [read_aux, if_true, eq_self_iff_true, Option.some.injEq,
        Prod.mk.injEq] at hr
      obtain ⟨h1, h2, h3⟩ := hr
      subst h1; subst h2; subst h3
      refine ⟨by simp, Nat.zero_le _, ?_, ?_, ?_⟩
      · simpa using hh
      · simp
      · simp
    · by_cases h1 : n < f.length - off
      · simp only [read_aux, if_neg hn, if_pos h1, Option.some.injEq,
          Prod.mk.injEq] at hr
        obtain ⟨e1, e2, e3⟩ := hr
        subst e1; subst e2; subst e3
        have hdlen : (f.drop off).length = f.length - off := List.length_drop ..
        refine ⟨?_, Nat.zero_le _, ?_, ?_, ?_⟩
        · rw [List.flatten_cons, List.drop_append_eq_append_drop,
            Nat.sub_eq_zero_of_le hh, List.drop_zero,
            List.take_append_eq_append_take, hdlen]
          have : n - (f.length - off) = 0 := by omega
          rw [this]
          simp
        · show off + n ≤ f.length
          omega
        · simp
        · simp
      · by_cases h2 : n = f.length - off
        · simp only [read_aux, if_neg hn, if_neg h1, if_pos h2,
            Option.some.injEq, Prod.mk.injEq] at hr
          obtain ⟨e1, e2, e3⟩ := hr
          subst e1; subst e2; subst e3
          have hdlen : (f.drop off).length = f.length - off := List.length_drop ..
          refine ⟨?_, by simp, Nat.zero_le _, ?_, ?_⟩
          · rw [List.flatten_cons, List.drop_append_eq_append_drop,
              Nat.sub_eq_zero_of_le hh, List.drop_zero,
              List.take_append_eq_append_take, hdlen]
            have h3 : n - (f.length - off) = 0 := by omega
            rw [h3, show n = (List.drop off f).length from by rw [hdlen]; omega,
              List.take_length (List.drop off f)]
            simp
          · simp only [List.take_succ_cons, List.take_zero, List.map_cons,
              List.map_nil, List.sum_cons, List.sum_nil]
            omega
          · simp only [List.drop_succ_cons, List.drop_zero, List.flatten_cons]
            rw [List.drop_append_eq_append_drop]
            have h3 : off + n = f.length := by omega
            rw [h3, List.drop_eq_nil_of_le (Nat.le_refl _), Nat.sub_self,
              List.drop_zero, List.nil_append]
        · simp only [read_aux, if_neg hn, if_neg h1, if_neg h2] at hr
          cases hcase : read_aux rest 0 (n - (f.length - off)) with
          | none => rw [hcase] at hr; cases hr
          | some t =>
            obtain ⟨rows1, adv1, off1⟩ := t
            rw [hcase] at hr
            simp only [Option.some.injEq, Prod.mk.injEq] at hr
            obtain ⟨e1, e2, e3⟩ := hr
            subst e1; subst e2; subst e3
            obtain ⟨c1, c2, c3, c4, c5⟩ :=
              ih 0 (n - (f.length - off)) rows1 adv1 off1 (Nat.zero_le _) hcase
            simp only [List.drop_zero] at c1 c5
            have hdlen : (f.drop off).length = f.length - off := List.length_drop ..
            refine ⟨?_, by simp only [List.length_cons]; omega, ?_, ?_, ?_⟩
            · rw [List.flatten_cons, List.drop_append_eq_append_drop,
                Nat.sub_eq_zero_of_le hh, List.drop_zero,
                List.take_append_eq_append_take, hdlen,
                List.take_of_length_le (by omega : (f.drop off).length ≤ n), c1]
            · simpa only [List.drop_succ_cons] using c3
            · simp only [List.take_succ_cons, List.map_cons, List.sum_cons]
              omega
            · simp only [List.drop_succ_cons, List.flatten_cons]
              rw [c5, List.drop_append_eq_append_drop,
                List.drop_eq_nil_of_le (by omega : f.length ≤ off + n),
                List.nil_append]
              congr 1
              omega

/-- The remaining-row count is the length of the stream ahead of the cursor. -/
lemma remaining_eq (c : MultiFileCursor) : remaining c = (rows_from c).length := by
  simp [remaining, rows_from, List.length_drop, List.length_flatten]

/-- Everything a successful `read_rows` guarantees: the returned rows are the
next `n` rows of the stream in order, the new cursor continues right after
them over the same files, stays well formed, and has consumed exactly `n`
more rows. -/
lemma read_rows_ok_spec (c : MultiFileCursor) (n : Nat) (rows : List (List Int))
    (c2 : MultiFileCursor) (hwf : WellFormed c)
    (h : read_rows c n = (Except.ok rows, c2)) :
    rows = (rows_from c).take n ∧ n ≤ remaining c ∧
    rows_from c2 = (rows_from c).drop n ∧
    c2.files = c.files ∧ WellFormed c2 ∧ consumed c2 = consumed c + n := by
  cases hcase : read_aux (c.files.drop c.file_index) c.row_offset n with
  | none =>
    rw [read_rows, hcase] at h
    cases h
  | some t =>
    obtain ⟨rows0, adv, off2⟩ := t
    rw [read_rows, hcase] at h
    simp only [Prod.mk.injEq, Except.ok.injEq] at h
    obtain ⟨hrows0, hc2⟩ := h
    subst hrows0
    obtain ⟨c1, c2le, c3, c4, c5⟩ :=
      read_aux_some_spec _ _ _ _ _ _ hwf.2 hcase
    have hlen : ((c.files.drop c.file_index).flatten.drop c.row_offset).length =
        remaining c := by
      rw [remaining_eq]; rfl
    have hnotnone : ¬ (read_aux (c.files.drop c.file_index) c.row_offset n = none) := by
      simp [hcase]
    have hle : n ≤ remaining c := by
      have := (read_aux_none_iff (c.files.drop c.file_index) c.row_offset n hwf.2).mpr
      rw [hlen] at this
      by_contra hcon
      exact hnotnone (this (by omega))
    have hdd : (c.files.drop c.file_index).drop adv = c.files.drop (c.file_index + adv) := by
      rw [List.drop_drop, Nat.add_comm]
    refine ⟨c1, hle, ?_, ?_, ?_, ?_⟩
    · rw [← hc2]
      show (c.files.drop (c.file_index + adv)).flatten.drop off2 =
        ((c.files.drop c.file_index).flatten.drop c.row_offset).drop n
      rw [← hdd, c5, List.drop_drop, Nat.add_comm]
    · rw [← hc2]
    · rw [← hc2]
      constructor
      · show c.file_index + adv ≤ c.files.length
        have hdl : (c.files.drop c.file_index).length = c.files.length - c.file_index :=
          List.length_drop ..
        have := hwf.1
        omega
      · show off2 ≤ ((c.files.drop (c.file_index + adv)).headD []).length
        rw [← hdd]
        exact c3
    · rw [← hc2]
      show ((c.files.take (c.file_index + adv)).map List.length).sum + off2 =
        consumed c + n
      rw [List.take_add, List.map_append, List.sum_append]
      unfold consumed
      omega

/-- C1: a request for more rows than remain fails with end-of-data from both
`read_rows` and `read_events`, leaving the cursor position exactly as before
— also when the shortfall only shows after crossing file boundaries — and a
subsequent read of any count within the untouched remainder succeeds. -/
theorem read_rows_end_of_data (c : MultiFileCursor) (n : Nat)
    (hwf : WellFormed c) (hn : remaining c < n) :
    read_rows c n = (Except.error (), c) ∧
    (∀ k, read_events { cursor := c, n_features := k } n =
      (Except.error (), { cursor := c, n_features := k })) ∧
    (∀ m, m ≤ remaining c → (read_rows c m).1.isOk = true) := by
  have hlen : ((c.files.drop c.file_index).flatten.drop c.row_offset).length =
      remaining c := by
    rw [remaining_eq]; rfl
  have hnone : read_aux (c.files.drop c.file_index) c.row_offset n = none := by
    rw [read_aux_none_iff (c.files.drop c.file_index) c.row_offset n hwf.2, hlen]
    exact hn
  have hfail : read_rows c n = (Except.error (), c) := by
    rw [read_rows, hnone]
  refine ⟨hfail, ?_, ?_⟩
  · intro k
    rw [read_events, hfail]
  · intro m hm
    cases hcase : read_aux (c.files.drop c.file_index) c.row_offset m with
    | none =>
      have := (read_aux_none_iff (c.files.drop c.file_index) c.row_offset m hwf.2).mp hcase
      rw [hlen] at this
      omega
    | some t =>
      obtain ⟨rows0, adv, off2⟩ := t
      rw [read_rows, hcase]
      rfl

/-- Witness for C1: a one-file cursor with two rows remaining rejects a
three-row request and still serves any request of at most two rows. -/
theorem read_rows_end_of_data_witness :
    WellFormed cursorA ∧ remaining cursorA < 3 ∧
      (read_rows cursorA 3 = (Except.error (), cursorA) ∧
       (∀ k, read_events { cursor := cursorA, n_features := k } 3 =
         (Except.error (), { cursor := cursorA, n_features := k })) ∧
       (∀ m, m ≤ remaining cursorA → (read_rows cursorA m).1.isOk = true)) :=
  ⟨by decide, by decide, read_rows_end_of_data cursorA 3 (by decide) (by decide)⟩

/-- C9: every successful read returns exactly the next `n` rows of the
logical stream — file-list order, then on-file physical order — with no row
duplicated and no row skipped: the returned rows followed by the stream ahead
of the new cursor reconstitute the stream ahead of the old cursor.  A read
spanning a file boundary therefore returns the tail of the earlier file
immediately followed by the head of the next file. -/
theorem read_rows_in_order (c : MultiFileCursor) (n : Nat)
    (rows : List (List Int)) (c2 : MultiFileCursor)
    (hwf : WellFormed c) (h : read_rows c n = (Except.ok rows, c2)) :
    rows ++ rows_from c2 = rows_from c ∧
    rows = (rows_from c).take n ∧ rows.length = n ∧
    c2.files = c.files ∧ WellFormed c2 := by
  obtain ⟨h1, h2, h3, h4, h5, -⟩ := read_rows_ok_spec c n rows c2 hwf h
  have hrem := remaining_eq c
  refine ⟨?_, h1, ?_, h4, h5⟩
  · rw [h1, h3, List.take_append_drop]
  · rw [h1, List.length_take]
    omega

/-- Witness for C9: reading two rows from the second row of the first of two
two-row files returns the boundary-spanning rows `[[11], [12]]`. -/
theorem read_rows_in_order_witness :
    WellFormed cursorB ∧
      read_rows cursorB 2 = (Except.ok [[11], [12]], cursorB2) ∧
      ([[11], [12]] ++ rows_from cursorB2 = rows_from cursorB ∧
        [[11], [12]] = (rows_from cursorB).take 2 ∧
        ([[11], [12]] : List (List Int)).length = 2 ∧
        cursorB2.files = cursorB.files ∧ WellFormed cursorB2) :=
  ⟨by decide, by rfl,
    read_rows_in_order cursorB 2 [[11], [12]] cursorB2 (by decide) (by rfl)⟩

/-- C2: for every `n` between `1` and the total rows remaining,
`read_events n` succeeds, the features block has shape
`(n, n_features)` and the labels block has shape `(n, 1)`, and the logical
read position advances by exactly `n` rows over the unchanged file list. -/
theorem read_events_shapes (r : BatchedDatasetReader) (n : Nat)
    (hwf : WellFormed r.cursor) (hrows : rowsOk r.cursor (r.n_features + 1))
    (h1 : 1 ≤ n) (h2 : n ≤ remaining r.cursor) :
    ∃ x y r2, read_events r n = (Except.ok (x, y), r2) ∧
      x.length = n ∧ (∀ row ∈ x, row.length = r.n_features) ∧
      y.length = n ∧ (∀ lab ∈ y, lab.length = 1) ∧
      consumed r2.cursor = consumed r.cursor + n ∧
      r2.cursor.files = r.cursor.files := by
  have hlen : ((r.cursor.files.drop r.cursor.file_index).flatten.drop
      r.cursor.row_offset).length = remaining r.cursor := by
    rw [remaining_eq]; rfl
  cases hcase : read_aux (r.cursor.files.drop r.cursor.file_index)
      r.cursor.row_offset n with
  | none =>
    have := (read_aux_none_iff (r.cursor.files.drop r.cursor.file_index)
      r.cursor.row_offset n hwf.2).mp hcase
    rw [hlen] at this
    omega
  | some t =>
    obtain ⟨rows0, adv, off2⟩ := t
    have hrr : read_rows r.cursor n = (Except.ok rows0,
        { r.cursor with file_index := r.cursor.file_index + adv, row_offset := off2 }) := by
      rw [read_rows, hcase]
    obtain ⟨s1, s2, s3, s4, s5, s6⟩ := read_rows_ok_spec r.cursor n rows0 _ hwf hrr
    have hre : read_events r n = (Except.ok
        (rows0.map (fun row => row.take r.n_features),
         rows0.map (fun row => row.drop r.n_features)),
        { r with cursor := { r.cursor with
            file_index := r.cursor.file_index + adv, row_offset := off2 } }) := by
      rw [read_events, hrr]
    have hmem : ∀ row ∈ rows0, row.length = r.n_features + 1 := by
      intro row hrow
      rw [s1] at hrow
      have m1 : row ∈ rows_from r.cursor := (List.take_sublist ..).subset hrow
      have m2 : row ∈ (r.cursor.files.drop r.cursor.file_index).flatten :=
        (List.drop_sublist ..).subset m1
      obtain ⟨f, hf, hrowf⟩ := List.mem_flatten.mp m2
      exact hrows f ((List.drop_sublist ..).subset hf) row hrowf
    have hlen0 : rows0.length = n := by
      rw [s1, List.length_take]
      rw [remaining_eq] at h2
      omega
    refine ⟨_, _, _, hre, ?_, ?_, ?_, ?_, s6, s4⟩
    · rw [List.length_map]; exact hlen0
    · intro row hrow
      obtain ⟨row0, hrow0, htake⟩ := List.mem_map.mp hrow
      rw [← htake, List.length_take, hmem row0 hrow0]
      omega
    · rw [List.length_map]; exact hlen0
    · intro lab hlab
      obtain ⟨row0, hrow0, hdrop⟩ := List.mem_map.mp hlab
      rw [← hdrop, List.length_drop, hmem row0 hrow0]
      omega

/-- Witness for C2: a reader with one feature column over files of two and
one rows reads two events with shapes `(2, 1)` and `(2, 1)`. -/
theorem read_events_shapes_witness :
    WellFormed readerC.cursor ∧ rowsOk readerC.cursor (readerC.n_features + 1) ∧
      1 ≤ 2 ∧ 2 ≤ remaining readerC.cursor ∧
      (∃ x y r2, read_events readerC 2 = (Except.ok (x, y), r2) ∧
        x.length = 2 ∧ (∀ row ∈ x, row.length = readerC.n_features) ∧
        y.length = 2 ∧ (∀ lab ∈ y, lab.length = 1) ∧
        consumed r2.cursor = consumed readerC.cursor + 2 ∧
        r2.cursor.files = readerC.cursor.files) :=
  ⟨by decide, by decide, by decide, by decide,
    read_events_shapes readerC 2 (by decide) (by decide) (by decide) (by decide)⟩

end CursorLemmas

end Vbfml
